import Mathlib

/-!
Verification development for the Open Finance consent/token starter kit.

This file gives a shallow embedding, in Lean 4, of the consent orchestration
and token lifecycle core of the repository:

* the token-cache fast path and grant selection of
  `apps/starter-kit/api/services/dashboardData.js` (`usableAccessToken`,
  `computeExpiryTimestamp`, the token-acquisition step of
  `fetchDashboardData`, `exchangeAuthorizationCode`, `refreshAccessToken`);
* the consent store `apps/starter-kit/api/services/consentStore.js`
  (`withSupabase`, `recordConsentCreation`, `decodeBase64Json`,
  `flattenQuery`, `safeJson`, `recordConsentCallback`);
* the payment-amount validation and PKCE / state construction of
  `apps/starter-kit/api/routes/consentCreate.js`;
* the in-memory auth-code debug store
  `apps/starter-kit/api/services/authCodeStore.js`.

Modelling conventions, used throughout:

* JavaScript strings are modelled either as Lean `String` (when only
  concatenation, emptiness and equality matter) or as `List Nat` of UTF-16
  code units (when byte-level encoding matters: base64, UTF-8, JSON, SHA-256).
* Timestamps are modelled by their epoch value in milliseconds (`Int`);
  an ISO-8601 timestamp string is represented by the instant it denotes,
  i.e. by the result of `Date.parse` on it.  A `Date.parse` result that is
  `NaN` (an unparseable string) is modelled as `Option.none` in the inner
  layer of `expires_at : Option (Option Int)`.
* `undefined` / `null` / absent fields are modelled by `Option.none`;
  JavaScript truthiness of an optional string is `Option` presence together
  with non-emptiness.
* Asynchronous functions that can throw are modelled with `Except String`;
  network effects are made explicit by passing the would-be network response
  in as an argument and by returning a description of the outbound request.
-/

namespace OpenFinance

/-- JavaScript truthiness of a possibly-absent string value
(`undefined`/`null` and the empty string are falsy). -/
def truthyStr : Option String → Bool
  | none => false
  | some s => s ≠ ""

/-! ## Token cache and lifecycle (`dashboardData.js`) -/

/-- The `token_cache` object kept inside a consent record's `metadata`,
as read back by `coerceTokenCache`.  `expires_at` is an optional timestamp
string; the outer `Option` is field absence (or a falsy value), the inner
`Option` is the `Date.parse` result (`none` for an unparseable string). -/
structure TokenCache where
  access_token : Option String
  refresh_token : Option String
  expires_at : Option (Option Int)
  obtained_at : Option Int
deriving Repr, DecidableEq

/-- `usableAccessToken` (dashboardData.js): returns the cached access token
only when it is set and its expiry parses to an instant strictly more than
the 60 s safety window after `now`; otherwise `null`. -/
def usableAccessToken (cache : Option TokenCache) (now : Int) : Option String :=
  match cache with
  | none => none
  | some c =>
    if ¬ truthyStr c.access_token then none
    else
      match c.expires_at with
      | none => none
      | some none => none
      | some (some expiryMs) =>
        if expiryMs - 60000 ≤ now then none else c.access_token

/-- `computeExpiryTimestamp` (dashboardData.js): `now + expiresIn` seconds as
an absolute instant, or `null` when `expires_in` is absent, not a finite
number, or non-positive. -/
def computeExpiryTimestamp (now : Int) (expiresIn : Option Int) : Option Int :=
  match expiresIn with
  | none => none
  | some s => if s ≤ 0 then none else some (now + s * 1000)

/-- The body of a token-endpoint request, as built by
`exchangeAuthorizationCode` and `refreshAccessToken`. -/
inductive GrantRequest where
  | refresh (refresh_token : String)
  | exchange (code : String) (code_verifier : String)
deriving Repr, DecidableEq

/-- The `grant_type` field each token request carries. -/
def GrantRequest.grant_type : GrantRequest → String
  | .refresh _ => "refresh_token"
  | .exchange _ _ => "authorization_code"

/-- What the token-acquisition step of `fetchDashboardData` decides to do:
either serve the cached access token (no token-endpoint call is made in this
branch of the source) or issue one specific token-endpoint request. -/
inductive TokenDecision where
  | cached (access_token : String)
  | call (request : GrantRequest)
deriving Repr, DecidableEq

/-- The `refreshToken` local of `fetchDashboardData`:
`tokenCache?.refresh_token ?? null`. -/
def cachedRefreshToken (cache : Option TokenCache) : Option String :=
  cache.bind (·.refresh_token)

/-- The branch structure of `fetchDashboardData` lines 356–400: use the
cached token when `usableAccessToken` yields one; otherwise refresh when a
truthy `refreshToken` is cached, else exchange the stored authorization code
and code verifier. -/
def tokenDecision (cache : Option TokenCache) (now : Int)
    (authCode codeVerifier : String) : TokenDecision :=
  match usableAccessToken cache now with
  | some t => .cached t
  | none =>
    if truthyStr (cachedRefreshToken cache) then
      match cachedRefreshToken cache with
      | some rt => .call (.refresh rt)
      | none => .call (.exchange authCode codeVerifier)
    else
      .call (.exchange authCode codeVerifier)

/-- A token-endpoint response body (`refreshed` / `exchanged` in the source).
`expires_in` is the numeric value of the field (`none` when absent or not a
number). -/
structure TokenResponse where
  access_token : Option String
  refresh_token : Option String
  expires_in : Option Int
deriving Repr, DecidableEq

/-- The `token_cache` object handed to `persistCache` on a successful
refresh or exchange (fields that are `undefined` in the source are `none`
here and are dropped by the store's `dropUndefined`). -/
structure PersistedCache where
  access_token : String
  refresh_token : Option String
  expires_at : Option Int
  obtained_at : Int
deriving Repr, DecidableEq

/-- The token-acquisition step of `fetchDashboardData`, with the token
endpoint's response passed in: returns the access token to use together with
the cache written by `persistCache` (`none` when the fast path was taken and
nothing was persisted), or the thrown error message. -/
def fetchDashboardToken (cache : Option TokenCache) (now : Int)
    (resp : TokenResponse) :
    Except String (String × Option PersistedCache) :=
  match usableAccessToken cache now with
  | some t => .ok (t, none)
  | none =>
    if truthyStr (cachedRefreshToken cache) then
      match resp.access_token with
      | none => .error "Refresh token did not return an access token."
      | some t =>
        if t = "" then .error "Refresh token did not return an access token."
        else
          .ok (t, some {
            access_token := t
            refresh_token := resp.refresh_token.orElse fun _ => cachedRefreshToken cache
            expires_at := computeExpiryTimestamp now resp.expires_in
            obtained_at := now })
    else
      match resp.access_token with
      | none => .error "Authorization code exchange did not return an access token."
      | some t =>
        if t = "" then .error "Authorization code exchange did not return an access token."
        else
          .ok (t, some {
            access_token := t
            refresh_token := resp.refresh_token
            expires_at := computeExpiryTimestamp now resp.expires_in
            obtained_at := now })

/-! ## Payment-amount validation (`consentCreate.js`) -/

/-- Decimal digit character. -/
def isDigitChar (c : Char) : Bool :=
  48 ≤ c.toNat ∧ c.toNat ≤ 57

/-- The `\.\d{2}` tail of the amount pattern: exactly a dot and two digits. -/
def fracPart : List Char → Bool
  | ['.', d1, d2] => isDigitChar d1 && isDigitChar d2
  | _ => false

/-- After a leading nonzero digit: `\d*` then the fractional tail. -/
def digitsThenFrac : List Char → Bool
  | [] => false
  | c :: rest => if isDigitChar c then digitsThenFrac rest else fracPart (c :: rest)

/-- The amount regex `^(?:0|[1-9]\d*)(\.\d{2})$` of the single-payment and
variable-on-demand routes, as a matcher on the whole character list. -/
def matchesAmountPattern : List Char → Bool
  | [] => false
  | c :: rest =>
    if c = '0' then fracPart rest
    else if isDigitChar c then digitsThenFrac rest
    else false

/-- Value of a digit list read in base 10. -/
def digitsToNat (l : List Char) : Nat :=
  l.foldl (fun a c => a * 10 + (c.toNat - 48)) 0

/-- The numeric value, in cents, of an amount string of the shape accepted by
the regex (integer part, dot, two digits).  On such strings JavaScript's
`parseFloat` yields `amountCents s / 100`, so `parseFloat s <= 0` holds
exactly when `amountCents s = 0`. -/
def amountCents (s : List Char) : Nat :=
  let intPart := s.takeWhile (· ≠ '.')
  let frac := (s.dropWhile (· ≠ '.')).drop 1
  digitsToNat intPart * 100 + digitsToNat frac

/-- JavaScript string whitespace (the characters removed by `trim`). -/
def jsWhitespace (c : Char) : Bool :=
  c.toNat = 9 ∨ c.toNat = 10 ∨ c.toNat = 11 ∨ c.toNat = 12 ∨ c.toNat = 13 ∨
  c.toNat = 32 ∨ c.toNat = 160 ∨ c.toNat = 0x1680 ∨
  (0x2000 ≤ c.toNat ∧ c.toNat ≤ 0x200A) ∨ c.toNat = 0x2028 ∨
  c.toNat = 0x2029 ∨ c.toNat = 0x202F ∨ c.toNat = 0x205F ∨
  c.toNat = 0x3000 ∨ c.toNat = 0xFEFF

/-- `String.prototype.trim` on a character list. -/
def jsTrim (s : List Char) : List Char :=
  ((s.dropWhile jsWhitespace).reverse.dropWhile jsWhitespace).reverse

/-- The validation guard of `POST /consent-create/single-payment` and
`POST /consent-create/variable-on-demand-payments` applied to a string
amount (`payment_amount` / `max_payment_amount`): the request is accepted
(not rejected with `Invalid payment_amount`) exactly when this is `true`.
The source rejects when the trimmed string is empty, or the regex fails, or
`parseFloat` of the string is `<= 0`. -/
def validPaymentAmount (s : List Char) : Bool :=
  if jsTrim s = [] then false
  else if ¬ matchesAmountPattern s then false
  else decide (0 < amountCents s)

/-! ## Byte-level string infrastructure

JavaScript strings are sequences of UTF-16 code units, modelled as
`List Nat`.  `ascii` coerces a Lean string literal (ASCII in this file) to
that representation. -/

/-- Code units of a Lean string (used for ASCII literals). -/
def ascii (s : String) : List Nat :=
  s.data.map Char.toNat

/-- Character of the standard base64 alphabet at a 6-bit index. -/
def b64Char (n : Nat) : Nat :=
  if n < 26 then 65 + n
  else if n < 52 then 97 + (n - 26)
  else if n < 62 then 48 + (n - 52)
  else if n = 62 then 43
  else 47

/-- Standard base64 encoding of a byte list, with `=` padding — the encoding
performed by `btoa` on a string of code units below 256. -/
def base64Encode : List Nat → List Nat
  | [] => []
  | [a] => [b64Char (a / 4), b64Char (a % 4 * 16), 61, 61]
  | [a, b] => [b64Char (a / 4), b64Char (a % 4 * 16 + b / 16), b64Char (b % 16 * 4), 61]
  | a :: b :: c :: rest =>
    b64Char (a / 4) :: b64Char (a % 4 * 16 + b / 16) ::
      b64Char (b % 16 * 4 + c / 64) :: b64Char (c % 64) :: base64Encode rest

/-- `btoa`: base64 of the code units, failing (a thrown `DOMException`) when
any unit is above 255. -/
def btoa (s : List Nat) : Option (List Nat) :=
  if s.all (· < 256) then some (base64Encode s) else none

/-- Index of a character in the base64 alphabet (`none` for `=` and any
other character, which Node's forgiving decoder skips). -/
def b64Index (c : Nat) : Option Nat :=
  if 65 ≤ c ∧ c ≤ 90 then some (c - 65)
  else if 97 ≤ c ∧ c ≤ 122 then some (c - 97 + 26)
  else if 48 ≤ c ∧ c ≤ 57 then some (c - 48 + 52)
  else if c = 43 then some 62
  else if c = 47 then some 63
  else none

/-- Reassemble bytes from a list of 6-bit groups (a trailing group of one is
ignored, as in base64 decoders). -/
def b64Quads : List Nat → List Nat
  | a :: b :: c :: d :: rest => (a * 4 + b / 16) :: (b % 16 * 16 + c / 4) :: (c % 4 * 64 + d) :: b64Quads rest
  | [a, b, c] => [a * 4 + b / 16, b % 16 * 16 + c / 4]
  | [a, b] => [a * 4 + b / 16]
  | _ => []

/-- `Buffer.from(value, "base64")`: decode, skipping characters outside the
base64 alphabet (including the `=` padding). -/
def base64Decode (s : List Nat) : List Nat :=
  b64Quads (s.filterMap b64Index)

/-- The `padEnd` step of `decodeBase64Json`: append `=` until the length is
a multiple of four. -/
def padBase64 (s : List Nat) : List Nat :=
  s ++ List.replicate ((4 - s.length % 4) % 4) 61

/-- UTF-8 bytes of a code-unit sequence (surrogate pairs combine into one
4-byte scalar; a lone surrogate is encoded like any other 3-byte unit, as
CryptoJS's UTF-8 writer does). -/
def utf8Encode : List Nat → List Nat
  | [] => []
  | c :: rest =>
    if c < 0x80 then c :: utf8Encode rest
    else if c < 0x800 then (0xC0 + c / 64) :: (0x80 + c % 64) :: utf8Encode rest
    else if 0xD800 ≤ c ∧ c < 0xDC00 then
      match rest with
      | d :: rest2 =>
        if 0xDC00 ≤ d ∧ d < 0xE000 then
          let cp := 0x10000 + (c - 0xD800) * 0x400 + (d - 0xDC00)
          (0xF0 + cp / 0x40000) :: (0x80 + cp / 0x1000 % 64) ::
            (0x80 + cp / 64 % 64) :: (0x80 + cp % 64) :: utf8Encode rest2
        else
          (0xE0 + c / 4096) :: (0x80 + c / 64 % 64) :: (0x80 + c % 64) ::
            utf8Encode (d :: rest2)
      | [] => [0xE0 + c / 4096, 0x80 + c / 64 % 64, 0x80 + c % 64]
    else
      (0xE0 + c / 4096) :: (0x80 + c / 64 % 64) :: (0x80 + c % 64) :: utf8Encode rest
termination_by l => l.length
decreasing_by all_goals simp only [List.length_cons]; omega

/-- Whether a byte is a UTF-8 continuation byte. -/
def utf8Cont (b : Nat) : Bool :=
  0x80 ≤ b ∧ b < 0xC0

/-- Code units of a scalar value (a surrogate pair above `0xFFFF`). -/
def scalarToUnits (cp : Nat) : List Nat :=
  if cp < 0x10000 then [cp]
  else [0xD800 + (cp - 0x10000) / 0x400, 0xDC00 + (cp - 0x10000) % 0x400]

/-- `buffer.toString("utf8")`: decode UTF-8 bytes to code units, emitting
`U+FFFD` for an invalid lead byte or a truncated/invalid sequence (the
replacement covers the maximal invalid subpart, and the offending following
byte is then processed on its own). -/
def utf8Decode : List Nat → List Nat
  | [] => []
  | b :: rest =>
    if b < 0x80 then b :: utf8Decode rest
    else if b < 0xC2 then 0xFFFD :: utf8Decode rest
    else if b < 0xE0 then
      match rest with
      | c :: rest2 =>
        if utf8Cont c then ((b - 0xC0) * 64 + (c - 0x80)) :: utf8Decode rest2
        else 0xFFFD :: utf8Decode (c :: rest2)
      | [] => [0xFFFD]
    else if b < 0xF0 then
      match rest with
      | c :: rest2 =>
        if utf8Cont c then
          match rest2 with
          | d :: rest3 =>
            if utf8Cont d then
              let cp := (b - 0xE0) * 4096 + (c - 0x80) * 64 + (d - 0x80)
              (if cp < 0x800 ∨ (0xD800 ≤ cp ∧ cp < 0xE000) then 0xFFFD else cp) ::
                utf8Decode rest3
            else 0xFFFD :: utf8Decode (d :: rest3)
          | [] => [0xFFFD]
        else 0xFFFD :: utf8Decode (c :: rest2)
      | [] => [0xFFFD]
    else if b < 0xF5 then
      match rest with
      | c :: rest2 =>
        if utf8Cont c then
          match rest2 with
          | d :: rest3 =>
            if utf8Cont d then
              match rest3 with
              | e :: rest4 =>
                if utf8Cont e then
                  let cp := (b - 0xF0) * 0x40000 + (c - 0x80) * 4096 +
                    (d - 0x80) * 64 + (e - 0x80)
                  (if cp < 0x10000 ∨ 0x110000 ≤ cp then [0xFFFD]
                    else scalarToUnits cp) ++ utf8Decode rest4
                else 0xFFFD :: utf8Decode (e :: rest4)
              | [] => [0xFFFD]
            else 0xFFFD :: utf8Decode (d :: rest3)
          | [] => [0xFFFD]
        else 0xFFFD :: utf8Decode (c :: rest2)
      | [] => [0xFFFD]
    else 0xFFFD :: utf8Decode rest

/-! ## SHA-256 and the PKCE code challenge

`consentCreate.js` derives the challenge with `CryptoJS.SHA256` on the UTF-8
bytes of the verifier, base64-encodes the raw digest and post-processes the
characters.  SHA-256 is FIPS 180-4, implemented here over byte lists with
32-bit words as naturals reduced modulo `2 ^ 32`. -/

/-- Truncate to a 32-bit word. -/
def w32 (x : Nat) : Nat :=
  x % 4294967296

/-- Right-rotation of a 32-bit word. -/
def rotr (n x : Nat) : Nat :=
  w32 (x / 2 ^ n + x % 2 ^ n * 2 ^ (32 - n))

/-- SHA-256 `Ch`. -/
def shaCh (x y z : Nat) : Nat :=
  Nat.xor (x &&& y) ((4294967295 - w32 x) &&& z)

/-- SHA-256 `Maj`. -/
def shaMaj (x y z : Nat) : Nat :=
  Nat.xor (Nat.xor (x &&& y) (x &&& z)) (y &&& z)

/-- SHA-256 `Σ0`. -/
def bsig0 (x : Nat) : Nat :=
  Nat.xor (Nat.xor (rotr 2 x) (rotr 13 x)) (rotr 22 x)

/-- SHA-256 `Σ1`. -/
def bsig1 (x : Nat) : Nat :=
  Nat.xor (Nat.xor (rotr 6 x) (rotr 11 x)) (rotr 25 x)

/-- SHA-256 `σ0`. -/
def ssig0 (x : Nat) : Nat :=
  Nat.xor (Nat.xor (rotr 7 x) (rotr 18 x)) (x / 2 ^ 3)

/-- SHA-256 `σ1`. -/
def ssig1 (x : Nat) : Nat :=
  Nat.xor (Nat.xor (rotr 17 x) (rotr 19 x)) (x / 2 ^ 10)

/-- The SHA-256 round constants (decimal). -/
def shaK : List Nat :=
  [1116352408, 1899447441, 3049323471, 3921009573, 961987163,
   1508970993, 2453635748, 2870763221, 3624381080, 310598401,
   607225278, 1426881987, 1925078388, 2162078206, 2614888103,
   3248222580, 3835390401, 4022224774, 264347078, 604807628,
   770255983, 1249150122, 1555081692, 1996064986, 2554220882,
   2821834349, 2952996808, 3210313671, 3336571891, 3584528711,
   113926993, 338241895, 666307205, 773529912, 1294757372,
   1396182291, 1695183700, 1986661051, 2177026350, 2456956037,
   2730485921, 2820302411, 3259730800, 3345764771, 3516065817,
   3600352804, 4094571909, 275423344, 430227734, 506948616,
   659060556, 883997877, 958139571, 1322822218, 1537002063,
   1747873779, 1955562222, 2024104815, 2227730452, 2361852424,
   2428436474, 2756734187, 3204031479, 3329325298]

/-- The eight-word SHA-256 working state. -/
structure Sha256State where
  a : Nat
  b : Nat
  c : Nat
  d : Nat
  e : Nat
  f : Nat
  g : Nat
  h : Nat
deriving Repr, DecidableEq

/-- The SHA-256 initial hash value (decimal). -/
def shaInit : Sha256State :=
  ⟨1779033703, 3144134277, 1013904242, 2773480762,
   1359893119, 2600822924, 528734635, 1541459225⟩

/-- Big-endian length field of the padding: eight bytes of the bit length. -/
def lenBytes (bits : Nat) : List Nat :=
  [bits / 2 ^ 56 % 256, bits / 2 ^ 48 % 256, bits / 2 ^ 40 % 256,
   bits / 2 ^ 32 % 256, bits / 2 ^ 24 % 256, bits / 2 ^ 16 % 256,
   bits / 2 ^ 8 % 256, bits % 256]

/-- SHA-256 message padding: a `0x80` byte, zeros to 56 mod 64, then the
64-bit big-endian bit length. -/
def sha256Pad (msg : List Nat) : List Nat :=
  msg ++ 128 :: List.replicate ((64 + 55 - msg.length % 64) % 64) 0 ++
    lenBytes (msg.length * 8)

/-- Big-endian 32-bit words of a byte list. -/
def bytesToWords : List Nat → List Nat
  | a :: b :: c :: d :: rest =>
    (a * 16777216 + b * 65536 + c * 256 + d) :: bytesToWords rest
  | _ => []

/-- One extension step of the message schedule, appending word `W[n]`. -/
def scheduleStep (ws : List Nat) : List Nat :=
  let n := ws.length
  ws ++ [w32 (ssig1 (ws.getD (n - 2) 0) + ws.getD (n - 7) 0 +
    ssig0 (ws.getD (n - 15) 0) + ws.getD (n - 16) 0)]

/-- The 64-word message schedule of one chunk. -/
def schedule (w16 : List Nat) : List Nat :=
  Nat.repeat scheduleStep 48 w16

/-- One SHA-256 round. -/
def shaRound (st : Sha256State) (k w : Nat) : Sha256State :=
  let t1 := w32 (st.h + bsig1 st.e + shaCh st.e st.f st.g + k + w)
  let t2 := w32 (bsig0 st.a + shaMaj st.a st.b st.c)
  ⟨w32 (t1 + t2), st.a, st.b, st.c, w32 (st.d + t1), st.e, st.f, st.g⟩

/-- Compress one 64-byte chunk into the state. -/
def compressChunk (st : Sha256State) (chunk : List Nat) : Sha256State :=
  let ws := schedule (bytesToWords chunk)
  let fin := (List.range 64).foldl
    (fun s t => shaRound s (shaK.getD t 0) (ws.getD t 0)) st
  ⟨w32 (st.a + fin.a), w32 (st.b + fin.b), w32 (st.c + fin.c),
   w32 (st.d + fin.d), w32 (st.e + fin.e), w32 (st.f + fin.f),
   w32 (st.g + fin.g), w32 (st.h + fin.h)⟩

/-- Fold the compression function over the 64-byte chunks of the padded
message. -/
def processChunks (st : Sha256State) (l : List Nat) : Sha256State :=
  if l = [] then st
  else processChunks (compressChunk st (l.take 64)) (l.drop 64)
termination_by l.length
decreasing_by
  simp only [List.length_drop]
  have : 0 < l.length := List.length_pos.mpr (by assumption)
  omega

/-- Big-endian bytes of a 32-bit word. -/
def wordBytes (w : Nat) : List Nat :=
  [w / 16777216 % 256, w / 65536 % 256, w / 256 % 256, w % 256]

/-- The SHA-256 digest (32 bytes) of a byte list. -/
def sha256 (msg : List Nat) : List Nat :=
  let st := processChunks shaInit (sha256Pad msg)
  wordBytes st.a ++ wordBytes st.b ++ wordBytes st.c ++ wordBytes st.d ++
    wordBytes st.e ++ wordBytes st.f ++ wordBytes st.g ++ wordBytes st.h

/-- The PKCE code challenge of `consentCreate.js`: base64 of the SHA-256
digest of the verifier's UTF-8 bytes, then `+`→`-`, `/`→`_`, and one
trailing `=` removed when present. -/
def codeChallenge (verifier : List Nat) : List Nat :=
  let c1 := base64Encode (sha256 (utf8Encode verifier))
  let c2 := c1.map fun ch => if ch = 43 then 45 else ch
  let c3 := c2.map fun ch => if ch = 47 then 95 else ch
  if c3.getLast? = some 61 then c3.dropLast else c3

/-- Character of the base64url alphabet at a 6-bit index. -/
def b64UrlChar (n : Nat) : Nat :=
  if n = 62 then 45 else if n = 63 then 95 else b64Char n

/-- Modelled from the spec: `base64url_nopad`, base64 over the URL-safe
alphabet with no padding characters.  This is the specification-side
definition the implementation's challenge is compared against. -/
def base64UrlNoPad : List Nat → List Nat
  | [] => []
  | [a] => [b64UrlChar (a / 4), b64UrlChar (a % 4 * 16)]
  | [a, b] => [b64UrlChar (a / 4), b64UrlChar (a % 4 * 16 + b / 16), b64UrlChar (b % 16 * 4)]
  | a :: b :: c :: rest =>
    b64UrlChar (a / 4) :: b64UrlChar (a % 4 * 16 + b / 16) ::
      b64UrlChar (b % 16 * 4 + c / 64) :: b64UrlChar (c % 64) :: base64UrlNoPad rest

/-! ## JSON values, `JSON.stringify` escaping and `JSON.parse`

Only what the consent core relies on: `JSON.parse` is modelled by a
recursive-descent parser of the JSON grammar over code units; numeric
literals are kept as their raw text, since no modelled consumer inspects a
numeric value beyond truthiness. -/

/-- A parsed JSON value.  Strings are code-unit lists; object fields keep
their textual order. -/
inductive JVal where
  | jnull
  | boolean (b : Bool)
  | num (lit : List Nat)
  | str (s : List Nat)
  | arr (elems : List JVal)
  | obj (fields : List (List Nat × JVal))
deriving Repr

/-- Lowercase hexadecimal digit character for a value below 16. -/
def hexDigitLower (n : Nat) : Nat :=
  if n < 10 then 48 + n else 87 + n

/-- `JSON.stringify` escaping of one code unit inside a string literal
(quote, backslash, the short control escapes, `\u00xx` for the remaining
control characters; all other units pass through). -/
def escCodeUnit (c : Nat) : List Nat :=
  if c = 34 then [92, 34]
  else if c = 92 then [92, 92]
  else if c = 8 then [92, 98]
  else if c = 9 then [92, 116]
  else if c = 10 then [92, 110]
  else if c = 12 then [92, 102]
  else if c = 13 then [92, 114]
  else if c < 32 then [92, 117, 48, 48, hexDigitLower (c / 16), hexDigitLower (c % 16)]
  else [c]

/-- A `JSON.stringify` string literal: quoted and escaped. -/
def jsonQuote (s : List Nat) : List Nat :=
  (34 :: s.flatMap escCodeUnit) ++ [34]

/-- `JSON.stringify({code_verifier, consent_id})` — the `stateData` object of
the consent-creation routes, fields in insertion order. -/
def stringifyState (consentId codeVerifier : List Nat) : List Nat :=
  [123] ++ jsonQuote (ascii "code_verifier") ++ [58] ++ jsonQuote codeVerifier ++
    [44] ++ jsonQuote (ascii "consent_id") ++ [58] ++ jsonQuote consentId ++ [125]

/-- `state = btoa(JSON.stringify(stateData))` of the consent-creation
routes. -/
def encodeState (consentId codeVerifier : List Nat) : Option (List Nat) :=
  btoa (stringifyState consentId codeVerifier)

/-- JSON insignificant whitespace. -/
def jsonWs (c : Nat) : Bool :=
  c = 32 ∨ c = 9 ∨ c = 10 ∨ c = 13

/-- Skip insignificant whitespace. -/
def skipWs (l : List Nat) : List Nat :=
  l.dropWhile jsonWs

/-- Value of one hexadecimal digit character. -/
def hexVal (c : Nat) : Option Nat :=
  if 48 ≤ c ∧ c ≤ 57 then some (c - 48)
  else if 97 ≤ c ∧ c ≤ 102 then some (c - 97 + 10)
  else if 65 ≤ c ∧ c ≤ 70 then some (c - 65 + 10)
  else none

/-- The single-character JSON string escapes. -/
def jsonUnescape (e : Nat) : Option Nat :=
  if e = 34 then some 34
  else if e = 92 then some 92
  else if e = 47 then some 47
  else if e = 98 then some 8
  else if e = 102 then some 12
  else if e = 110 then some 10
  else if e = 114 then some 13
  else if e = 116 then some 9
  else none

/-- Parse the body of a JSON string literal (after the opening quote),
returning the decoded units and the remaining input after the closing
quote. -/
def parseStringBody : List Nat → Option (List Nat × List Nat)
  | [] => none
  | c :: rest =>
    if c = 34 then some ([], rest)
    else if c = 92 then
      match rest with
      | [] => none
      | e :: rest2 =>
        if e = 117 then
          match rest2 with
          | h1 :: h2 :: h3 :: h4 :: rest3 =>
            match hexVal h1, hexVal h2, hexVal h3, hexVal h4 with
            | some a, some b, some cc, some d =>
              (parseStringBody rest3).map fun (s, r) =>
                ((a * 4096 + b * 256 + cc * 16 + d) :: s, r)
            | _, _, _, _ => none
          | _ => none
        else
          match jsonUnescape e with
          | some d => (parseStringBody rest2).map fun (s, r) => (d :: s, r)
          | none => none
    else if c < 32 then none
    else (parseStringBody rest).map fun (s, r) => (c :: s, r)

/-- Digit code unit. -/
def isDigitCU (c : Nat) : Bool :=
  48 ≤ c ∧ c ≤ 57

/-- Scan a JSON numeric literal (sign, integer part without leading zeros,
optional fraction, optional exponent), returning its text and the rest. -/
def parseNumber (l : List Nat) : Option (List Nat × List Nat) :=
  let (sign, l1) :=
    match l with
    | c :: r => if c = 45 then ([45], r) else (([] : List Nat), l)
    | [] => ([], [])
  match l1 with
  | [] => none
  | c :: r =>
    if ¬ isDigitCU c then none
    else if c = 48 ∧ (r.head?.map isDigitCU).getD false then none
    else
      let intPart := l1.takeWhile isDigitCU
      let afterInt := l1.dropWhile isDigitCU
      let (fracPart, afterFrac) :=
        match afterInt with
        | d :: fr =>
          if d = 46 then
            let ds := fr.takeWhile isDigitCU
            if ds = [] then ([46], none)
            else (46 :: ds, some (fr.dropWhile isDigitCU))
          else ([], some afterInt)
        | [] => ([], some afterInt)
      match afterFrac with
      | none => none
      | some rest1 =>
        let (expPart, afterExp) :=
          match rest1 with
          | e :: er =>
            if e = 101 ∨ e = 69 then
              let (es, er2) :=
                match er with
                | s :: er1 => if s = 43 ∨ s = 45 then ([e, s], er1) else ([e], er)
                | [] => ([e], [])
              let ds := er2.takeWhile isDigitCU
              if ds = [] then (([46] : List Nat), none)
              else (es ++ ds, some (er2.dropWhile isDigitCU))
            else ([], some rest1)
          | [] => ([], some rest1)
        match afterExp with
        | none => none
        | some rest2 => some (sign ++ intPart ++ fracPart ++ expPart, rest2)

mutual

/-- `JSON.parse` value parser: one JSON value and the remaining input.  The
fuel argument strictly exceeds the nesting depth on every input on which it
is invoked below (it is seeded with the input length plus two, and every
recursive call first consumes at least one code unit). -/
def parseJVal : Nat → List Nat → Option (JVal × List Nat)
  | 0, _ => none
  | fuel + 1, l =>
    match skipWs l with
    | [] => none
    | c :: rest =>
      if c = 34 then (parseStringBody rest).map fun (s, r) => (JVal.str s, r)
      else if c = 123 then
        match skipWs rest with
        | [] => none
        | c2 :: r2 =>
          if c2 = 125 then some (JVal.obj [], r2)
          else (parseMembers fuel (c2 :: r2)).map fun (fs, r) => (JVal.obj fs, r)
      else if c = 91 then
        match skipWs rest with
        | [] => none
        | c2 :: r2 =>
          if c2 = 93 then some (JVal.arr [], r2)
          else (parseElems fuel (c2 :: r2)).map fun (es, r) => (JVal.arr es, r)
      else if c = 110 then
        match rest with
        | u :: l1 :: l2 :: r =>
          if u = 117 ∧ l1 = 108 ∧ l2 = 108 then some (JVal.jnull, r) else none
        | _ => none
      else if c = 116 then
        match rest with
        | r1 :: u1 :: e1 :: r =>
          if r1 = 114 ∧ u1 = 117 ∧ e1 = 101 then some (JVal.boolean true, r) else none
        | _ => none
      else if c = 102 then
        match rest with
        | a1 :: l1 :: s1 :: e1 :: r =>
          if a1 = 97 ∧ l1 = 108 ∧ s1 = 115 ∧ e1 = 101 then
            some (JVal.boolean false, r)
          else none
        | _ => none
      else (parseNumber (c :: rest)).map fun (lit, r) => (JVal.num lit, r)

/-- Parse the members of a non-empty JSON object, up to and including the
closing brace. -/
def parseMembers : Nat → List Nat → Option (List (List Nat × JVal) × List Nat)
  | 0, _ => none
  | fuel + 1, l =>
    match skipWs l with
    | [] => none
    | c :: rest =>
      if c = 34 then
        match parseStringBody rest with
        | none => none
        | some (key, r1) =>
          match skipWs r1 with
          | [] => none
          | c2 :: r2 =>
            if c2 = 58 then
              match parseJVal fuel r2 with
              | none => none
              | some (v, r3) =>
                match skipWs r3 with
                | [] => none
                | c3 :: r4 =>
                  if c3 = 44 then
                    (parseMembers fuel r4).map fun (fs, r) => ((key, v) :: fs, r)
                  else if c3 = 125 then some ([(key, v)], r4)
                  else none
            else none
      else none

/-- Parse the elements of a non-empty JSON array, up to and including the
closing bracket. -/
def parseElems : Nat → List Nat → Option (List JVal × List Nat)
  | 0, _ => none
  | fuel + 1, l =>
    match parseJVal fuel l with
    | none => none
    | some (v, r1) =>
      match skipWs r1 with
      | [] => none
      | c :: r2 =>
        if c = 44 then (parseElems fuel r2).map fun (es, r) => (v :: es, r)
        else if c = 93 then some ([v], r2)
        else none

end

/-- `JSON.parse`: a complete JSON text (one value with only whitespace
around it), or `none` where `JSON.parse` throws. -/
def jsonParse (l : List Nat) : Option JVal :=
  match parseJVal (l.length + 2) l with
  | some (v, r) => if skipWs r = [] then some v else none
  | none => none

/-! ## `decodeBase64Json` (consentStore.js) -/

/-- `decodeBase64Json`: given the (possibly absent) `state` string, pad it to
a multiple of four, base64-decode, read the bytes as UTF-8 and `JSON.parse`
the result; `null` when the value is not a non-empty string or parsing
throws. -/
def decodeBase64Json (value : Option (List Nat)) : Option JVal :=
  match value with
  | none => none
  | some s =>
    if s = [] then none
    else jsonParse (utf8Decode (base64Decode (padBase64 s)))

/-! ## Consent store (`consentStore.js`) -/

/-- JavaScript truthiness of a possibly-absent code-unit string. -/
def truthyCU : Option (List Nat) → Bool
  | none => false
  | some s => s ≠ []

/-- Whether a JSON numeric literal denotes zero: every digit of its mantissa
(the part before any exponent marker) is `0`. -/
def numLiteralIsZero (lit : List Nat) : Bool :=
  (lit.takeWhile fun c => c ≠ 101 ∧ c ≠ 69).all fun c => ¬ isDigitCU c ∨ c = 48

/-- JavaScript truthiness of a parsed JSON value. -/
def truthyJVal : JVal → Bool
  | .jnull => false
  | .boolean b => b
  | .num lit => ¬ numLiteralIsZero lit
  | .str s => s ≠ []
  | .arr _ => true
  | .obj _ => true

/-- Property access on a parsed JSON value (last field wins for duplicate
keys, as in `JSON.parse`; access on a non-object yields `undefined`). -/
def jsGet (v : JVal) (key : List Nat) : Option JVal :=
  match v with
  | .obj fields => (fields.reverse.find? fun f => decide (f.1 = key)).map (·.2)
  | _ => none

/-- The `consentId` local of `recordConsentCallback`:
`statePayload?.consent_id || statePayload?.consentId ||
statePayload?.ConsentId`, guarded by the subsequent `if (!consentId)` — the
value under which persistence proceeds, i.e. the first truthy candidate. -/
def extractConsentId (statePayload : Option JVal) : Option JVal :=
  let get := fun k => statePayload.bind (jsGet · (ascii k))
  match [get "consent_id", get "consentId", get "ConsentId"].find?
      (fun o => match o with | some v => truthyJVal v | none => false) with
  | some (some v) => some v
  | _ => none

/-- `safeJson` (consentStore.js) on a JSON value: `null` for `null`/absent
and for an object or array with no keys; otherwise the value itself. -/
def safeJson : Option JVal → Option JVal
  | none => none
  | some .jnull => none
  | some (.obj []) => none
  | some (.arr []) => none
  | some v => some v

/-- A query-string value as express delivers it: a string or an array of
strings. -/
inductive QVal where
  | str (s : List Nat)
  | list (elems : List (List Nat))
deriving Repr, DecidableEq

/-- `Array.prototype.join(",")`. -/
def joinComma : List (List Nat) → List Nat
  | [] => []
  | [s] => s
  | s :: rest => s ++ 44 :: joinComma rest

/-- `flattenQuery` (consentStore.js): join array values with commas, keep
string values; `null` when the query is absent or ends up with no keys. -/
def flattenQuery (query : Option (List (List Nat × QVal))) :
    Option (List (List Nat × List Nat)) :=
  match query with
  | none => none
  | some q =>
    let result := q.map fun kv =>
      (kv.1, match kv.2 with | .str s => s | .list l => joinComma l)
    if result = [] then none else some result

/-- `safeJson` applied to a flattened query object: `null` stays `null`, an
object with no keys becomes `null`. -/
def safeJsonFlat : Option (List (List Nat × List Nat)) →
    Option (List (List Nat × List Nat))
  | none => none
  | some [] => none
  | some q => some q

/-- The row `recordConsentCallback` hands to the store's upsert. -/
structure CallbackRow where
  consent_id : JVal
  auth_code : Option (List Nat)
  issuer : Option (List Nat)
  state_payload : Option JVal
  callback_query : Option (List (List Nat × List Nat))
  callback_error : Option (Option (List Nat) × Option (List Nat))
  callback_received_at : Int
  status : String
deriving Repr

/-- The arguments of `recordConsentCallback` (each a possibly-absent
string, plus the raw query object). -/
structure CallbackArgs where
  code : Option (List Nat)
  state : Option (List Nat)
  issuer : Option (List Nat)
  error : Option (List Nat)
  errorDescription : Option (List Nat)
  query : Option (List (List Nat × QVal))
deriving Repr

/-- The row-construction part of `recordConsentCallback` (consentStore.js):
decode `state`, recover a truthy consent id (else persist nothing and
return `false`, modelled as `none`), compute the callback status and build
the upsert row. -/
def recordConsentCallbackRow (a : CallbackArgs) (now : Int) : Option CallbackRow :=
  match extractConsentId (decodeBase64Json a.state) with
  | none => none
  | some consentId =>
    some {
      consent_id := consentId
      auth_code := a.code
      issuer := a.issuer
      state_payload := safeJson (decodeBase64Json a.state)
      callback_query := safeJsonFlat (flattenQuery a.query)
      callback_error :=
        if truthyCU a.error ∨ truthyCU a.errorDescription then
          some (a.error, a.errorDescription)
        else none
      callback_received_at := now
      status :=
        if truthyCU a.error then "callback_error"
        else if truthyCU a.code then "authorization_code_received"
        else "callback_received" }

/-- `withSupabase` (consentStore.js): absent credentials make it the `noop`
returning `false`; otherwise the upsert is attempted and any backend error
is caught, logged and turned into `false`.  The backend outcome is passed
in; the result is `Except` to make visible that no exception escapes. -/
def withSupabase (enabled : Bool) (backend : Except String Unit) :
    Except String Bool :=
  if enabled then
    match backend with
    | .ok _ => .ok true
    | .error _ => .ok false
  else .ok false

/-- `recordConsentCallback`'s returned promise: `false` without any store
interaction when the consent id cannot be recovered, else the result of
`withSupabase` on the built row. -/
def recordConsentCallback (enabled : Bool) (a : CallbackArgs) (now : Int)
    (backend : Except String Unit) : Except String Bool :=
  match recordConsentCallbackRow a now with
  | none => .ok false
  | some _ => withSupabase enabled backend

/-- The arguments of `recordConsentCreation` (consentStore.js). -/
structure CreationArgs where
  consentId : Option String
  consentType : Option String
  redirectUrl : Option String
  codeVerifier : Option String
  bankLabel : Option String
  metadata : Option JVal
  status : Option String

/-- The row `recordConsentCreation` hands to the store's upsert (for a
truthy consent id `cid`). -/
structure CreationRow where
  consent_id : String
  consent_type : Option String
  redirect_url : Option String
  code_verifier : Option String
  bank_label : Option String
  metadata : Option JVal
  status : String
  source : String

/-- The upsert row built by `recordConsentCreation`: note the status
defaults to `redirect_ready` via `status ?? "redirect_ready"`. -/
def creationRow (a : CreationArgs) (cid : String) : CreationRow :=
  { consent_id := cid
    consent_type := a.consentType
    redirect_url := a.redirectUrl
    code_verifier := a.codeVerifier
    bank_label := a.bankLabel
    metadata := safeJson a.metadata
    status := a.status.getD "redirect_ready"
    source := "starter-kit" }

/-- `recordConsentCreation`: `false` when `consentId` is falsy, else the
result of `withSupabase` on `creationRow`. -/
def recordConsentCreation (enabled : Bool) (a : CreationArgs)
    (backend : Except String Unit) : Except String Bool :=
  if ¬ truthyStr a.consentId then .ok false
  else withSupabase enabled backend

/-! ## The single-payment consent-creation success path (`consentCreate.js`) -/

/-- A successful PAR response: the upstream HTTP status and the
`request_uri` of its body. -/
structure ParResponse where
  status : Nat
  request_uri : String
deriving Repr, DecidableEq

/-- The JSON body returned to the caller by a consent-creation route. -/
structure CreateConsentResponse where
  status : Nat
  redirect : String
  consent_id : String
  code_verifier : String
deriving Repr, DecidableEq

/-- What the success branch of `POST /consent-create/single-payment`
produces: the HTTP response and the list of consent-store writes it
performs. -/
structure SinglePaymentOutcome where
  response : CreateConsentResponse
  storeWrites : List CreationRow

/-- The `try` block of `POST /consent-create/single-payment` (lines
202–213) once the PAR call has succeeded: build
`{authEndpoint}?client_id=...&response_type=code&scope=openid&request_uri=...`,
log, and respond with the PAR status and
`{redirect, consent_id, code_verifier}`.  The handler performs no
consent-store write: `consentCreate.js` neither imports nor calls
`recordConsentCreation` (or any other `consentStore.js` export), so
`storeWrites` is empty. -/
def singlePaymentSuccess (clientId authEndpoint consentId codeVerifier : String)
    (par : ParResponse) : SinglePaymentOutcome :=
  let redirectLink := authEndpoint ++ "?client_id=" ++ clientId ++
    "&response_type=code&scope=openid&request_uri=" ++ par.request_uri
  { response := {
      status := par.status
      redirect := redirectLink
      consent_id := consentId
      code_verifier := codeVerifier }
    storeWrites := [] }

/-! ## The in-memory auth-code debug store (`authCodeStore.js`) -/

/-- `MAX_RECORDS`. -/
def MAX_RECORDS : Nat := 50

/-- An entry of the debug store: the spread fields of the incoming record
plus the `receivedAt` stamp added by `addAuthCodeRecord`. -/
structure AuthCodeEntry where
  payload : List (String × String)
  receivedAt : Int
deriving Repr, DecidableEq

/-- `addAuthCodeRecord`: stamp the record with `receivedAt`, `unshift` it,
and `pop` the last entry when the length now exceeds `MAX_RECORDS`.
Returns the new store contents (the source also returns the entry, which is
`⟨record, now⟩`). -/
def addAuthCodeRecord (records : List AuthCodeEntry)
    (record : List (String × String)) (now : Int) : List AuthCodeEntry :=
  let entry : AuthCodeEntry := ⟨record, now⟩
  let afterUnshift := entry :: records
  if afterUnshift.length > MAX_RECORDS then afterUnshift.dropLast
  else afterUnshift

/-- `getLatestAuthCodeRecord`: `records[0] ?? null`. -/
def getLatestAuthCodeRecord (records : List AuthCodeEntry) : Option AuthCodeEntry :=
  records.head?

/-- The store contents after a sequence of `addAuthCodeRecord` calls
starting from the module's initial empty `records` array. -/
def runAdds (ops : List (List (String × String) × Int)) : List AuthCodeEntry :=
  ops.foldl (fun s op => addAuthCodeRecord s op.1 op.2) []

/-! # Theorems -/

/-- One `addAuthCodeRecord` call keeps the store at or below capacity. -/
theorem addAuthCodeRecord_length_le (records : List AuthCodeEntry)
    (record : List (String × String)) (now : Int)
    (h : records.length ≤ MAX_RECORDS) :
    (addAuthCodeRecord records record now).length ≤ MAX_RECORDS := by
  unfold addAuthCodeRecord
  dsimp only
  split
  · simp only [List.length_dropLast, List.length_cons]
    omega
  · next h2 =>
    simp only [List.length_cons, MAX_RECORDS] at h2 ⊢
    omega

/-- C10: the in-memory auth-code debug store holds at most 50 records at all
times (any sequence of adds from the initial empty store stays within
capacity, and one add preserves it); `addAuthCodeRecord` prepends the new
entry stamped with its `receivedAt` timestamp and evicts the oldest (last)
entry exactly when the count would exceed 50; `getLatestAuthCodeRecord`
returns the most recently added record, and `null` on the empty store. -/
theorem authCodeStore_bounded_latest :
    (∀ ops, (runAdds ops).length ≤ MAX_RECORDS) ∧
    (∀ records record now, records.length ≤ MAX_RECORDS →
      (addAuthCodeRecord records record now).length ≤ MAX_RECORDS) ∧
    (∀ records record now, MAX_RECORDS ≤ records.length →
      addAuthCodeRecord records record now =
        (⟨record, now⟩ : AuthCodeEntry) :: records.dropLast) ∧
    (∀ records record now, records.length < MAX_RECORDS →
      addAuthCodeRecord records record now =
        (⟨record, now⟩ : AuthCodeEntry) :: records) ∧
    (∀ records record now,
      getLatestAuthCodeRecord (addAuthCodeRecord records record now) =
        some ⟨record, now⟩) ∧
    getLatestAuthCodeRecord [] = none := by
  refine ⟨?_, addAuthCodeRecord_length_le, ?_, ?_, ?_, rfl⟩
  · intro ops
    suffices h : ∀ s : List AuthCodeEntry, s.length ≤ MAX_RECORDS →
        (ops.foldl (fun s op => addAuthCodeRecord s op.1 op.2) s).length ≤
          MAX_RECORDS by
      exact h [] (by simp [MAX_RECORDS])
    induction ops with
    | nil => intro s hs; simpa using hs
    | cons op rest ih =>
      intro s hs
      exact ih _ (addAuthCodeRecord_length_le s op.1 op.2 hs)
  · intro records record now h
    unfold addAuthCodeRecord
    dsimp only
    rw [if_pos (by simp only [List.length_cons, MAX_RECORDS] at h ⊢; omega)]
    match records, h with
    | r :: rs, _ => simp [List.dropLast]
  · intro records record now h
    unfold addAuthCodeRecord
    dsimp only
    rw [if_neg (by simp only [List.length_cons, MAX_RECORDS] at h ⊢; omega)]
  · intro records record now
    unfold addAuthCodeRecord getLatestAuthCodeRecord
    dsimp only
    split
    · next h2 =>
      match records with
      | [] => simp [MAX_RECORDS] at h2
      | r :: rs => simp [List.dropLast]
    · rfl

/-- Witness for `authCodeStore_bounded_latest` at concrete inputs. -/
theorem authCodeStore_bounded_latest_witness :
    (addAuthCodeRecord (List.replicate 50 ⟨[], 0⟩) [("code", "x")] 7).length ≤
      MAX_RECORDS ∧
    addAuthCodeRecord (List.replicate 50 ⟨[], 0⟩) [("code", "x")] 7 =
      (⟨[("code", "x")], 7⟩ : AuthCodeEntry) ::
        (List.replicate 50 (⟨[], 0⟩ : AuthCodeEntry)).dropLast ∧
    addAuthCodeRecord [] [("code", "y")] 3 = [⟨[("code", "y")], 3⟩] ∧
    getLatestAuthCodeRecord (addAuthCodeRecord [] [("code", "y")] 3) =
      some ⟨[("code", "y")], 3⟩ := by
  refine ⟨?_, ?_, ?_, ?_⟩
  · exact authCodeStore_bounded_latest.2.1 _ _ _ (by simp [MAX_RECORDS])
  · exact authCodeStore_bounded_latest.2.2.1 _ _ _ (by simp [MAX_RECORDS])
  · exact authCodeStore_bounded_latest.2.2.2.1 _ _ _ (by simp [MAX_RECORDS])
  · exact authCodeStore_bounded_latest.2.2.2.2.1 _ _ _

/-- C1: the token lifecycle fast path.  When the cached `access_token` is
set and `expires_at` parses to an instant more than 60 seconds after the
call time, `usableAccessToken` returns the cached token and the token step
of `fetchDashboardData` serves it without issuing any token-endpoint
request; when the expiry is 60 seconds or less away, absent, or
unparseable, the cached token is not used and a refresh or an
authorization-code exchange is triggered instead. -/
theorem tokenCache_fast_path :
    (∀ (c : TokenCache) (now ms : Int) (t authCode codeVerifier : String),
      t ≠ "" → c.access_token = some t → c.expires_at = some (some ms) →
      60000 < ms - now →
      usableAccessToken (some c) now = some t ∧
      tokenDecision (some c) now authCode codeVerifier = .cached t) ∧
    (∀ (c : TokenCache) (now ms : Int), c.expires_at = some (some ms) →
      ms - now ≤ 60000 → usableAccessToken (some c) now = none) ∧
    (∀ (c : TokenCache) (now : Int),
      c.expires_at = none ∨ c.expires_at = some none →
      usableAccessToken (some c) now = none) ∧
    (∀ (c : TokenCache) (now : Int) (authCode codeVerifier : String),
      usableAccessToken (some c) now = none →
      (∃ rt, tokenDecision (some c) now authCode codeVerifier =
        .call (.refresh rt)) ∨
      tokenDecision (some c) now authCode codeVerifier =
        .call (.exchange authCode codeVerifier)) := by
  refine ⟨?_, ?_, ?_, ?_⟩
  · intro c now ms t authCode codeVerifier ht hat hexp hlt
    have husable : usableAccessToken (some c) now = some t := by
      simp only [usableAccessToken, hat, hexp, truthyStr]
      rw [if_neg (by simp [ht]), if_neg (by omega)]
    exact ⟨husable, by simp only [tokenDecision, husable]⟩
  · intro c now ms hexp hle
    simp only [usableAccessToken, hexp]
    split
    · rfl
    · rw [if_pos (by omega)]
  · intro c now h
    rcases h with h | h
    · simp only [usableAccessToken, h]
      split
      · rfl
      · rfl
    · simp only [usableAccessToken, h]
      split
      · rfl
      · rfl
  · intro c now authCode codeVerifier h
    simp only [tokenDecision, h]
    by_cases hrt : truthyStr (cachedRefreshToken (some c)) = true
    · rw [if_pos hrt]
      cases hcrt : cachedRefreshToken (some c) with
      | some rt => exact Or.inl ⟨rt, rfl⟩
      | none => exact Or.inr rfl
    · rw [if_neg hrt]
      exact Or.inr rfl

/-- Witness for `tokenCache_fast_path` at concrete inputs: a cache whose
token expires 120 s after the call is served from the cache; one expiring
30 s after the call is not, and a refresh is triggered. -/
theorem tokenCache_fast_path_witness :
    usableAccessToken
        (some ⟨some "tok", some "ref", some (some 1120000), some 0⟩) 1000000 =
      some "tok" ∧
    tokenDecision
        (some ⟨some "tok", some "ref", some (some 1120000), some 0⟩) 1000000
        "ac" "cv" = .cached "tok" ∧
    usableAccessToken
        (some ⟨some "tok", some "ref", some (some 1030000), some 0⟩) 1000000 =
      none ∧
    ((∃ rt, tokenDecision
        (some ⟨some "tok", some "ref", some (some 1030000), some 0⟩) 1000000
        "ac" "cv" = .call (.refresh rt)) ∨
      tokenDecision
        (some ⟨some "tok", some "ref", some (some 1030000), some 0⟩) 1000000
        "ac" "cv" = .call (.exchange "ac" "cv")) := by
  have h1 := tokenCache_fast_path.1 ⟨some "tok", some "ref", some (some 1120000), some 0⟩
    1000000 1120000 "tok" "ac" "cv" (by decide) rfl rfl (by omega)
  have h2 := tokenCache_fast_path.2.1 ⟨some "tok", some "ref", some (some 1030000), some 0⟩
    1000000 1030000 rfl (by omega)
  have h3 := tokenCache_fast_path.2.2.2 ⟨some "tok", some "ref", some (some 1030000), some 0⟩
    1000000 "ac" "cv" h2
  exact ⟨h1.1, h1.2, h2, h3⟩

/-- C8: grant selection and persistence of the token-acquisition step.
When no usable cached access token exists, the token endpoint is called
with `grant_type=refresh_token` exactly when a (truthy) `refreshToken` is
cached, and otherwise the stored `authCode` and `codeVerifier` are
exchanged with `grant_type=authorization_code`; in either successful case
the persisted cache carries the response's access token,
`expires_at = now + expires_in` (seconds, as an instant) and
`obtained_at = now`, and the new access token is returned. -/
theorem tokenLifecycle_grant_and_persist :
    (∀ (cache : Option TokenCache) (now : Int)
      (authCode codeVerifier rt : String),
      usableAccessToken cache now = none →
      cachedRefreshToken cache = some rt → rt ≠ "" →
      tokenDecision cache now authCode codeVerifier = .call (.refresh rt) ∧
      (GrantRequest.refresh rt).grant_type = "refresh_token") ∧
    (∀ (cache : Option TokenCache) (now : Int) (authCode codeVerifier : String),
      usableAccessToken cache now = none →
      (cachedRefreshToken cache = none ∨ cachedRefreshToken cache = some "") →
      tokenDecision cache now authCode codeVerifier =
        .call (.exchange authCode codeVerifier) ∧
      (GrantRequest.exchange authCode codeVerifier).grant_type =
        "authorization_code") ∧
    (∀ (cache : Option TokenCache) (now : Int) (resp : TokenResponse)
      (t : String) (e : Int),
      usableAccessToken cache now = none → resp.access_token = some t →
      t ≠ "" → resp.expires_in = some e → 0 < e →
      ∃ pc, fetchDashboardToken cache now resp = .ok (t, some pc) ∧
        pc.access_token = t ∧ pc.expires_at = some (now + e * 1000) ∧
        pc.obtained_at = now) := by
  refine ⟨?_, ?_, ?_⟩
  · intro cache now authCode codeVerifier rt hu hcrt hne
    refine ⟨?_, rfl⟩
    simp only [tokenDecision, hu, hcrt]
    rw [if_pos (by simp [truthyStr, hne])]
  · intro cache now authCode codeVerifier hu h
    refine ⟨?_, rfl⟩
    simp only [tokenDecision, hu]
    rcases h with h | h
    · rw [if_neg (by simp [truthyStr, h])]
    · rw [if_neg (by simp [truthyStr, h])]
  · intro cache now resp t e hu hat hne he hpos
    have hexp : computeExpiryTimestamp now resp.expires_in =
        some (now + e * 1000) := by
      simp only [computeExpiryTimestamp, he]
      rw [if_neg (by omega)]
    simp only [fetchDashboardToken, hu, hat]
    by_cases hrt : truthyStr (cachedRefreshToken cache) = true
    · rw [if_pos hrt, if_neg hne]
      exact ⟨_, rfl, rfl, hexp, rfl⟩
    · rw [if_neg hrt, if_neg hne]
      exact ⟨_, rfl, rfl, hexp, rfl⟩

/-- Witness for `tokenLifecycle_grant_and_persist` at concrete inputs. -/
theorem tokenLifecycle_grant_and_persist_witness :
    tokenDecision (some ⟨none, some "ref", none, none⟩) 1000 "ac" "cv" =
      .call (.refresh "ref") ∧
    tokenDecision (some ⟨none, none, none, none⟩) 1000 "ac" "cv" =
      .call (.exchange "ac" "cv") ∧
    (∃ pc, fetchDashboardToken (some ⟨none, none, none, none⟩) 1000
        ⟨some "newtok", some "newref", some 600⟩ = .ok ("newtok", some pc) ∧
      pc.access_token = "newtok" ∧ pc.expires_at = some (1000 + 600 * 1000) ∧
      pc.obtained_at = 1000) := by
  refine ⟨?_, ?_, ?_⟩
  · exact (tokenLifecycle_grant_and_persist.1
      (some ⟨none, some "ref", none, none⟩) 1000 "ac" "cv" "ref" rfl rfl
      (by decide)).1
  · exact (tokenLifecycle_grant_and_persist.2.1
      (some ⟨none, none, none, none⟩) 1000 "ac" "cv" rfl (Or.inl rfl)).1
  · exact tokenLifecycle_grant_and_persist.2.2
      (some ⟨none, none, none, none⟩) 1000 ⟨some "newtok", some "newref", some 600⟩
      "newtok" 600 rfl rfl (by decide) rfl (by omega)

/-- The amount pattern only accepts lists starting with a digit. -/
theorem matchesAmountPattern_head (s : List Char)
    (h : matchesAmountPattern s = true) :
    ∃ c rest, s = c :: rest ∧ isDigitChar c = true := by
  match s with
  | [] => simp [matchesAmountPattern] at h
  | c :: rest =>
    refine ⟨c, rest, rfl, ?_⟩
    simp only [matchesAmountPattern] at h
    by_cases h0 : c = '0'
    · subst h0; decide
    · rw [if_neg h0] at h
      by_cases hd : isDigitChar c = true
      · exact hd
      · rw [if_neg (by simp [hd])] at h
        exact absurd h (by simp)

/-- Digits are not JavaScript whitespace. -/
theorem isDigitChar_not_ws (c : Char) (h : isDigitChar c = true) :
    jsWhitespace c = false := by
  simp only [isDigitChar, decide_eq_true_eq] at h
  simp only [jsWhitespace, decide_eq_false_iff_not]
  omega

/-- A string accepted by the amount pattern does not trim to empty. -/
theorem jsTrim_pattern_ne_nil (s : List Char)
    (h : matchesAmountPattern s = true) : jsTrim s ≠ [] := by
  obtain ⟨c, rest, hs, hc⟩ := matchesAmountPattern_head s h
  subst hs
  have hws := isDigitChar_not_ws c hc
  simp only [jsTrim]
  intro hnil
  rw [List.reverse_eq_nil_iff] at hnil
  have hmem : c ∈ (List.dropWhile jsWhitespace (c :: rest)).reverse := by
    rw [List.dropWhile_cons, if_neg (by simp [hws])]
    simp
  have := List.dropWhile_eq_nil_iff.mp hnil c hmem
  rw [hws] at this
  exact absurd this (by simp)

/-- C5: the amount validator of the single-payment and variable-on-demand
routes accepts a string exactly when it matches
`^(0|[1-9]\d*)\.\d{2}$` and its numeric value is positive; in particular
`"100.00"` and `"0.01"` are accepted while `"100"`, `"100.0"`,
`"100.005"`, `"-5.00"` and `"0.00"` are rejected (with a 400 validation
error, before the PAR network call, in the source). -/
theorem amountValidation_regex_positive :
    (∀ s : List Char, validPaymentAmount s = true ↔
      (matchesAmountPattern s = true ∧ 0 < amountCents s)) ∧
    validPaymentAmount "100.00".data = true ∧
    validPaymentAmount "0.01".data = true ∧
    validPaymentAmount "100".data = false ∧
    validPaymentAmount "100.0".data = false ∧
    validPaymentAmount "100.005".data = false ∧
    validPaymentAmount "-5.00".data = false ∧
    validPaymentAmount "0.00".data = false := by
  refine ⟨?_, by decide, by decide, by decide, by decide, by decide,
    by decide, by decide⟩
  intro s
  unfold validPaymentAmount
  constructor
  · intro h
    by_cases h1 : jsTrim s = []
    · rw [if_pos h1] at h
      exact absurd h (by simp)
    · rw [if_neg h1] at h
      by_cases h2 : matchesAmountPattern s = true
      · rw [if_neg (by simp [h2])] at h
        exact ⟨h2, by simpa using h⟩
      · rw [if_pos (by simpa using h2)] at h
        exact absurd h (by simp)
  · rintro ⟨hp, hc⟩
    rw [if_neg (jsTrim_pattern_ne_nil s hp), if_neg (by simp [hp])]
    simpa using hc

/-- Witness for `amountValidation_regex_positive`: the equivalence applied
at the concrete string `"100.00"`. -/
theorem amountValidation_regex_positive_witness :
    validPaymentAmount "100.00".data = true ∧
    (matchesAmountPattern "100.00".data = true ∧ 0 < amountCents "100.00".data) := by
  have h := (amountValidation_regex_positive.1 "100.00".data).mpr
    ⟨by decide, by decide⟩
  exact ⟨h, by decide, by decide⟩

/-- C9: consent-store writes absorb backend failures.  Both
`recordConsentCreation` and `recordConsentCallback` return `false` (rather
than propagating an exception) whenever the persistence backend errors, and
more generally always resolve to a boolean, so the consent-creation and
callback-handling operations never fail solely because persistence
failed. -/
theorem consentStore_soft_failure :
    (∀ enabled a e, recordConsentCreation enabled a (.error e) = .ok false) ∧
    (∀ enabled a now e,
      recordConsentCallback enabled a now (.error e) = .ok false) ∧
    (∀ enabled a backend, ∃ b, recordConsentCreation enabled a backend = .ok b) ∧
    (∀ enabled a now backend,
      ∃ b, recordConsentCallback enabled a now backend = .ok b) := by
  refine ⟨?_, ?_, ?_, ?_⟩
  · intro enabled a e
    unfold recordConsentCreation withSupabase
    split
    · rfl
    · split <;> rfl
  · intro enabled a now e
    unfold recordConsentCallback withSupabase
    split
    · rfl
    · split <;> rfl
  · intro enabled a backend
    unfold recordConsentCreation withSupabase
    split
    · exact ⟨false, rfl⟩
    · split
      · cases backend with
        | ok _ => exact ⟨true, rfl⟩
        | error _ => exact ⟨false, rfl⟩
      · exact ⟨false, rfl⟩
  · intro enabled a now backend
    unfold recordConsentCallback withSupabase
    split
    · exact ⟨false, rfl⟩
    · split
      · cases backend with
        | ok _ => exact ⟨true, rfl⟩
        | error _ => exact ⟨false, rfl⟩
      · exact ⟨false, rfl⟩

/-- Decoding inverts the base64 alphabet on valid indices. -/
theorem b64Index_b64Char (n : Nat) (h : n < 64) : b64Index (b64Char n) = some n := by
  revert h
  revert n
  decide

/-- `=` and the appended padding are skipped by the decoder. -/
theorem filterMap_b64Index_pad (s : List Nat) (k : Nat) :
    (s ++ List.replicate k 61).filterMap b64Index = s.filterMap b64Index := by
  rw [List.filterMap_append]
  have : (List.replicate k 61).filterMap b64Index = [] := by
    induction k with
    | zero => rfl
    | succ k ih => simp [List.replicate_succ, List.filterMap_cons, b64Index, ih]
  rw [this, List.append_nil]

/-- Base64 decoding inverts base64 encoding on byte lists. -/
theorem base64_roundtrip :
    ∀ (bs : List Nat), (∀ b ∈ bs, b < 256) →
      base64Decode (base64Encode bs) = bs
  | [], _ => rfl
  | [a], hlt => by
    have ha : a < 256 := hlt a (by simp)
    have h1 : a / 4 < 64 := by omega
    have h2 : a % 4 * 16 < 64 := by omega
    simp only [base64Encode, base64Decode, List.filterMap_cons,
      b64Index_b64Char _ h1, b64Index_b64Char _ h2,
      show b64Index 61 = none from rfl, List.filterMap_nil]
    simp only [b64Quads]
    have : a / 4 * 4 + a % 4 * 16 / 16 = a := by omega
    rw [this]
  | [a, b], hlt => by
    have ha : a < 256 := hlt a (by simp)
    have hb : b < 256 := hlt b (by simp)
    have h1 : a / 4 < 64 := by omega
    have h2 : a % 4 * 16 + b / 16 < 64 := by omega
    have h3 : b % 16 * 4 < 64 := by omega
    simp only [base64Encode, base64Decode, List.filterMap_cons,
      b64Index_b64Char _ h1, b64Index_b64Char _ h2, b64Index_b64Char _ h3,
      show b64Index 61 = none from rfl, List.filterMap_nil]
    simp only [b64Quads]
    have e1 : a / 4 * 4 + (a % 4 * 16 + b / 16) / 16 = a := by omega
    have e2 : (a % 4 * 16 + b / 16) % 16 * 16 + b % 16 * 4 / 4 = b := by omega
    rw [e1, e2]
  | a :: b :: c :: rest, hlt => by
    have ha : a < 256 := hlt a (by simp)
    have hb : b < 256 := hlt b (by simp)
    have hc : c < 256 := hlt c (by simp)
    have h1 : a / 4 < 64 := by omega
    have h2 : a % 4 * 16 + b / 16 < 64 := by omega
    have h3 : b % 16 * 4 + c / 64 < 64 := by omega
    have h4 : c % 64 < 64 := by omega
    have ih := base64_roundtrip rest (fun x hx => hlt x (by simp [hx]))
    simp only [base64Encode, base64Decode, List.filterMap_cons,
      b64Index_b64Char _ h1, b64Index_b64Char _ h2, b64Index_b64Char _ h3,
      b64Index_b64Char _ h4] at ih ⊢
    simp only [b64Quads]
    have e1 : a / 4 * 4 + (a % 4 * 16 + b / 16) / 16 = a := by omega
    have e2 : (a % 4 * 16 + b / 16) % 16 * 16 + (b % 16 * 4 + c / 64) / 4 = b := by
      omega
    have e3 : (b % 16 * 4 + c / 64) % 4 * 64 + c % 64 = c := by omega
    rw [e1, e2, e3, ih]

/-- Base64 encoding of a non-empty byte list is non-empty. -/
theorem base64Encode_ne_nil : ∀ (bs : List Nat), bs ≠ [] → base64Encode bs ≠ []
  | [], h => absurd rfl h
  | [_], _ => by simp [base64Encode]
  | [_, _], _ => by simp [base64Encode]
  | _ :: _ :: _ :: _, _ => by simp [base64Encode]

/-- UTF-8 decoding is the identity on ASCII bytes. -/
theorem utf8Decode_ascii :
    ∀ (bs : List Nat), (∀ b ∈ bs, b < 128) → utf8Decode bs = bs
  | [], _ => rfl
  | b :: rest, hlt => by
    have hb : b < 128 := hlt b (by simp)
    have ih := utf8Decode_ascii rest (fun x hx => hlt x (by simp [hx]))
    unfold utf8Decode
    rw [if_pos (by omega), ih]

/-- `hexVal` inverts `hexDigitLower` below 16. -/
theorem hexVal_hexDigitLower (n : Nat) (h : n < 16) :
    hexVal (hexDigitLower n) = some n := by
  revert h
  revert n
  decide

/-- Parsing a `JSON.stringify`-escaped string body (followed by its closing
quote) recovers exactly the original code units. -/
theorem parseStringBody_escape :
    ∀ (s rest : List Nat),
      parseStringBody (s.flatMap escCodeUnit ++ 34 :: rest) = some (s, rest)
  | [], rest => by
    unfold parseStringBody
    simp
  | c :: s, rest => by
    have ih := parseStringBody_escape s rest
    by_cases h1 : c = 34
    · subst h1
      simp only [List.flatMap_cons, escCodeUnit, List.cons_append,
        List.append_assoc, List.nil_append]
      unfold parseStringBody
      simp [jsonUnescape, ih]
    · by_cases h2 : c = 92
      · subst h2
        simp only [List.flatMap_cons, escCodeUnit, List.cons_append,
          List.append_assoc, List.nil_append]
        unfold parseStringBody
        simp [jsonUnescape, ih]
      · by_cases h3 : c = 8
        · subst h3
          simp only [List.flatMap_cons, escCodeUnit, List.cons_append,
            List.append_assoc, List.nil_append]
          unfold parseStringBody
          simp [jsonUnescape, ih]
        · by_cases h4 : c = 9
          · subst h4
            simp only [List.flatMap_cons, escCodeUnit, List.cons_append,
              List.append_assoc, List.nil_append]
            unfold parseStringBody
            simp [jsonUnescape, ih]
          · by_cases h5 : c = 10
            · subst h5
              simp only [List.flatMap_cons, escCodeUnit, List.cons_append,
                List.append_assoc, List.nil_append]
              unfold parseStringBody
              simp [jsonUnescape, ih]
            · by_cases h6 : c = 12
              · subst h6
                simp only [List.flatMap_cons, escCodeUnit, List.cons_append,
                  List.append_assoc, List.nil_append]
                unfold parseStringBody
                simp [jsonUnescape, ih]
              · by_cases h7 : c = 13
                · subst h7
                  simp only [List.flatMap_cons, escCodeUnit, List.cons_append,
                    List.append_assoc, List.nil_append]
                  unfold parseStringBody
                  simp [jsonUnescape, ih]
                · by_cases h8 : c < 32
                  · have hesc : escCodeUnit c =
                        [92, 117, 48, 48, hexDigitLower (c / 16),
                          hexDigitLower (c % 16)] := by
                      unfold escCodeUnit
                      rw [if_neg h1, if_neg h2, if_neg h3, if_neg h4,
                        if_neg h5, if_neg h6, if_neg h7, if_pos h8]
                    have hd1 : hexVal (hexDigitLower (c / 16)) = some (c / 16) :=
                      hexVal_hexDigitLower _ (by omega)
                    have hd2 : hexVal (hexDigitLower (c % 16)) = some (c % 16) :=
                      hexVal_hexDigitLower _ (by omega)
                    have hval : 0 * 4096 + 0 * 256 + c / 16 * 16 + c % 16 = c := by
                      omega
                    simp only [List.flatMap_cons, hesc, List.cons_append,
                      List.append_assoc]
                    unfold parseStringBody
                    simp [hd1, hd2, ih, hval, show hexVal 48 = some 0 from rfl]
                    omega
                  · have hesc : escCodeUnit c = [c] := by
                      unfold escCodeUnit
                      rw [if_neg h1, if_neg h2, if_neg h3, if_neg h4,
                        if_neg h5, if_neg h6, if_neg h7, if_neg h8]
                    simp only [List.flatMap_cons, hesc, List.cons_append,
                      List.append_assoc, List.nil_append]
                    unfold parseStringBody
                    rw [if_neg h1, if_neg h2, if_neg h8, ih]
                    rfl

/-- Skipping whitespace leaves a list headed by a non-whitespace unit
unchanged. -/
theorem skipWs_not_ws (c : Nat) (l : List Nat) (h : jsonWs c = false) :
    skipWs (c :: l) = c :: l := by
  simp [skipWs, List.dropWhile_cons, h]

/-- A string literal parses to a string value. -/
theorem parseJVal_str (fuel : Nat) (s rest : List Nat) :
    parseJVal (fuel + 1) (34 :: (s.flatMap escCodeUnit ++ 34 :: rest)) =
      some (JVal.str s, rest) := by
  unfold parseJVal
  rw [skipWs_not_ws 34 _ rfl]
  simp [parseStringBody_escape]

/-- The trailing member of the state object parses, consuming the closing
brace. -/
theorem parseMembers_last (fuel : Nat) (k s rest : List Nat) :
    parseMembers (fuel + 2)
        (34 :: (k.flatMap escCodeUnit ++ 34 :: 58 ::
          (34 :: (s.flatMap escCodeUnit ++ 34 :: 125 :: rest)))) =
      some ([(k, JVal.str s)], rest) := by
  rw [show fuel + 2 = (fuel + 1) + 1 from rfl]
  unfold parseMembers
  rw [skipWs_not_ws 34 _ rfl]
  simp only [show (34 : Nat) = 34 from rfl, if_pos]
  rw [parseStringBody_escape]
  dsimp only
  rw [skipWs_not_ws 58 _ rfl]
  simp only [show ((58 : Nat) = 58) = True from by simp, if_true]
  rw [parseJVal_str fuel s (125 :: rest)]
  dsimp only
  rw [skipWs_not_ws 125 _ rfl]
  simp

/-- Both members of the state object parse, consuming the closing brace. -/
theorem parseMembers_state (fuel : Nat) (k1 v1 k2 v2 rest : List Nat) :
    parseMembers (fuel + 3)
        (34 :: (k1.flatMap escCodeUnit ++ 34 :: 58 ::
          (34 :: (v1.flatMap escCodeUnit ++ 34 :: 44 ::
            (34 :: (k2.flatMap escCodeUnit ++ 34 :: 58 ::
              (34 :: (v2.flatMap escCodeUnit ++ 34 :: 125 :: rest)))))))) =
      some ([(k1, JVal.str v1), (k2, JVal.str v2)], rest) := by
  rw [show fuel + 3 = (fuel + 2) + 1 from rfl]
  unfold parseMembers
  rw [skipWs_not_ws 34 _ rfl]
  simp only [show ((34 : Nat) = 34) = True from by simp, if_true]
  rw [parseStringBody_escape]
  dsimp only
  rw [skipWs_not_ws 58 _ rfl]
  simp only [show ((58 : Nat) = 58) = True from by simp, if_true]
  rw [show fuel + 2 = (fuel + 1) + 1 from rfl,
    parseJVal_str (fuel + 1) v1
      (44 :: (34 :: (k2.flatMap escCodeUnit ++ 34 :: 58 ::
        (34 :: (v2.flatMap escCodeUnit ++ 34 :: 125 :: rest)))))]
  dsimp only
  rw [skipWs_not_ws 44 _ rfl]
  simp only [show ((44 : Nat) = 44) = True from by simp, if_true,
    show ((44 : Nat) = 125) = False from by simp, if_false]
  rw [parseMembers_last fuel k2 v2 rest]
  rfl

/-- The stringified state object parses back to exactly its two fields. -/
theorem parseJVal_stringifyState (fuel : Nat) (c v : List Nat) :
    parseJVal (fuel + 4) (stringifyState c v) =
      some (JVal.obj [(ascii "code_verifier", JVal.str v),
        (ascii "consent_id", JVal.str c)], []) := by
  have e1 : stringifyState c v =
      123 :: 34 :: ((ascii "code_verifier").flatMap escCodeUnit ++ 34 :: 58 ::
        (34 :: (v.flatMap escCodeUnit ++ 34 :: 44 ::
          (34 :: ((ascii "consent_id").flatMap escCodeUnit ++ 34 :: 58 ::
            (34 :: (c.flatMap escCodeUnit ++ 34 :: 125 :: []))))))) := by
    simp [stringifyState, jsonQuote]
  rw [e1, show fuel + 4 = (fuel + 3) + 1 from rfl]
  unfold parseJVal
  rw [skipWs_not_ws 123 _ rfl]
  simp only [show ((123 : Nat) = 34) = False from by simp, if_false,
    show ((123 : Nat) = 123) = True from by simp, if_true]
  rw [skipWs_not_ws 34 _ rfl]
  simp only [show ((34 : Nat) = 125) = False from by simp, if_false]
  rw [parseMembers_state fuel]
  rfl

/-- Escaping an ASCII unit yields ASCII units. -/
theorem escCodeUnit_ascii (c : Nat) (h : c < 128) :
    ∀ x ∈ escCodeUnit c, x < 128 := by
  intro x hx
  unfold escCodeUnit at hx
  split_ifs at hx with h1 h2 h3 h4 h5 h6 h7 h8 <;>
    simp only [List.mem_cons, List.not_mem_nil, or_false] at hx
  · rcases hx with rfl | rfl <;> omega
  · rcases hx with rfl | rfl <;> omega
  · rcases hx with rfl | rfl <;> omega
  · rcases hx with rfl | rfl <;> omega
  · rcases hx with rfl | rfl <;> omega
  · rcases hx with rfl | rfl <;> omega
  · rcases hx with rfl | rfl <;> omega
  · rcases hx with rfl | rfl | rfl | rfl | rfl | rfl <;>
      first
        | omega
        | (simp only [hexDigitLower]; split <;> omega)
  · subst hx
    omega

/-- A stringified ASCII string literal is ASCII. -/
theorem jsonQuote_ascii (s : List Nat) (hs : ∀ x ∈ s, x < 128) :
    ∀ x ∈ jsonQuote s, x < 128 := by
  intro x hx
  simp only [jsonQuote, List.mem_append, List.mem_cons,
    List.not_mem_nil, or_false] at hx
  rcases hx with (rfl | hx) | rfl
  · omega
  · rw [List.mem_flatMap] at hx
    obtain ⟨a, ha, hxa⟩ := hx
    exact escCodeUnit_ascii a (hs a ha) x hxa
  · omega

/-- The stringified state object of two ASCII strings is ASCII. -/
theorem stringifyState_ascii (c v : List Nat) (hc : ∀ x ∈ c, x < 128)
    (hv : ∀ x ∈ v, x < 128) : ∀ x ∈ stringifyState c v, x < 128 := by
  intro x hx
  simp only [stringifyState, List.append_assoc, List.cons_append,
    List.nil_append, List.mem_append, List.mem_cons, List.not_mem_nil,
    or_false] at hx
  rcases hx with rfl | hx | rfl | hx | rfl | hx | rfl | hx | rfl
  · omega
  · exact jsonQuote_ascii (ascii "code_verifier") (by decide) x hx
  · omega
  · exact jsonQuote_ascii v hv x hx
  · omega
  · exact jsonQuote_ascii (ascii "consent_id") (by decide) x hx
  · omega
  · exact jsonQuote_ascii c hc x hx
  · omega

/-- The stringified state object is never empty. -/
theorem stringifyState_ne_nil (c v : List Nat) : stringifyState c v ≠ [] := by
  simp [stringifyState]

/-- C6 counterexample: the state encode/decode round trip fails outside
ASCII.  For `consent_id` the one-unit string `é` (unit 233) and
`code_verifier` `"v"`, `btoa` encodes the latin1 bytes of the JSON text,
but the reconciler decodes those bytes as UTF-8, so the lone `0xE9` byte
decodes to the replacement character `U+FFFD` (65533) and the recovered
pair differs from the original. -/
theorem state_roundtrip_counterexample :
    encodeState [233] (ascii "v") =
      some (ascii "eyJjb2RlX3ZlcmlmaWVyIjoidiIsImNvbnNlbnRfaWQiOiLpIn0=") ∧
    decodeBase64Json
        (some (ascii "eyJjb2RlX3ZlcmlmaWVyIjoidiIsImNvbnNlbnRfaWQiOiLpIn0=")) =
      some (JVal.obj [(ascii "code_verifier", JVal.str (ascii "v")),
        (ascii "consent_id", JVal.str [65533])]) ∧
    decodeBase64Json
        (some (ascii "eyJjb2RlX3ZlcmlmaWVyIjoidiIsImNvbnNlbnRfaWQiOiLpIn0=")) ≠
      some (JVal.obj [(ascii "code_verifier", JVal.str (ascii "v")),
        (ascii "consent_id", JVal.str [233])]) := by
  have hdec : decodeBase64Json
      (some (ascii "eyJjb2RlX3ZlcmlmaWVyIjoidiIsImNvbnNlbnRfaWQiOiLpIn0=")) =
    some (JVal.obj [(ascii "code_verifier", JVal.str (ascii "v")),
      (ascii "consent_id", JVal.str [65533])]) := rfl
  refine ⟨rfl, hdec, ?_⟩
  rw [hdec]
  intro h
  simp at h

/-- C6 (amended): for every `consent_id` / `code_verifier` pair of ASCII
strings (all code units below 128), encoding the state as the base64 of
the JSON object `{code_verifier, consent_id}` and decoding it with the
reconciler's base64-JSON decoder yields back exactly the original pair. -/
theorem state_roundtrip_ascii :
    ∀ (c v : List Nat), (∀ x ∈ c, x < 128) → (∀ x ∈ v, x < 128) →
      ∃ s, encodeState c v = some s ∧
        decodeBase64Json (some s) =
          some (JVal.obj [(ascii "code_verifier", JVal.str v),
            (ascii "consent_id", JVal.str c)]) := by
  intro c v hc hv
  have hascii := stringifyState_ascii c v hc hv
  have h256 : ∀ x ∈ stringifyState c v, x < 256 := by
    intro x hx
    have := hascii x hx
    omega
  have henc : encodeState c v = some (base64Encode (stringifyState c v)) := by
    unfold encodeState btoa
    rw [if_pos]
    rw [List.all_eq_true]
    intro x hx
    simpa using h256 x hx
  refine ⟨_, henc, ?_⟩
  unfold decodeBase64Json
  dsimp only
  rw [if_neg (base64Encode_ne_nil _ (stringifyState_ne_nil c v))]
  have hpad : base64Decode (padBase64 (base64Encode (stringifyState c v))) =
      stringifyState c v := by
    unfold padBase64 base64Decode
    rw [filterMap_b64Index_pad]
    exact base64_roundtrip (stringifyState c v) h256
  rw [hpad, utf8Decode_ascii _ hascii]
  unfold jsonParse
  obtain ⟨k, hk⟩ : ∃ k, (stringifyState c v).length + 2 = k + 4 := by
    refine ⟨(stringifyState c v).length - 2, ?_⟩
    have : 2 ≤ (stringifyState c v).length := by
      simp only [stringifyState, List.length_append, List.length_cons,
        List.length_singleton]
      omega
    omega
  rw [hk, parseJVal_stringifyState]
  simp [skipWs]

/-- Witness for `state_roundtrip_ascii`: the round trip at the concrete
pair `consent_id = "c1"`, `code_verifier = "v"`. -/
theorem state_roundtrip_ascii_witness :
    ∃ s, encodeState (ascii "c1") (ascii "v") = some s ∧
      decodeBase64Json (some s) =
        some (JVal.obj [(ascii "code_verifier", JVal.str (ascii "v")),
          (ascii "consent_id", JVal.str (ascii "c1"))]) :=
  state_roundtrip_ascii (ascii "c1") (ascii "v") (by decide) (by decide)

/-- The SHA-256 digest always has 32 bytes. -/
theorem sha256_length (m : List Nat) : (sha256 m).length = 32 := by
  simp [sha256, wordBytes]

/-- Every byte of a SHA-256 digest is below 256. -/
theorem sha256_bytes_lt (m : List Nat) : ∀ b ∈ sha256 m, b < 256 := by
  have hw : ∀ (w : Nat), ∀ b ∈ wordBytes w, b < 256 := by
    intro w b hb
    simp only [wordBytes, List.mem_cons, List.not_mem_nil, or_false] at hb
    rcases hb with rfl | rfl | rfl | rfl <;> omega
  intro b hb
  simp only [sha256, List.mem_append] at hb
  rcases hb with ((((((h | h) | h) | h) | h) | h) | h) | h <;> exact hw _ b h

/-- The character substitutions of `codeChallenge` turn the standard base64
alphabet into the base64url alphabet, index by index. -/
theorem b64Char_subst (n : Nat) (h : n < 64) :
    (if (if b64Char n = 43 then 45 else b64Char n) = 47 then 95
      else if b64Char n = 43 then 45 else b64Char n) = b64UrlChar n := by
  revert h
  revert n
  decide

/-- base64url alphabet characters are never `+`, `/` or `=`. -/
theorem b64UrlChar_ne (n : Nat) (h : n < 64) :
    b64UrlChar n ≠ 43 ∧ b64UrlChar n ≠ 47 ∧ b64UrlChar n ≠ 61 := by
  revert h
  revert n
  decide

/-- For a byte list of length `2 mod 3` (such as a SHA-256 digest), the
`+`→`-`, `/`→`_` substitution of the padded standard base64 encoding is the
unpadded base64url encoding followed by one `=`, and the base64url encoding
contains no `+`, `/` or `=`. -/
theorem base64Encode_mod3_2 :
    ∀ (bs : List Nat), bs.length % 3 = 2 → (∀ b ∈ bs, b < 256) →
      (((base64Encode bs).map fun ch => if ch = 43 then 45 else ch).map
          fun ch => if ch = 47 then 95 else ch) =
        base64UrlNoPad bs ++ [61] ∧
      ∀ c ∈ base64UrlNoPad bs, c ≠ 43 ∧ c ≠ 47 ∧ c ≠ 61
  | [], hlen, _ => by simp at hlen
  | [a], hlen, _ => by simp at hlen
  | [a, b], _, hlt => by
    have ha : a < 256 := hlt a (by simp)
    have hb : b < 256 := hlt b (by simp)
    have h1 : a / 4 < 64 := by omega
    have h2 : a % 4 * 16 + b / 16 < 64 := by omega
    have h3 : b % 16 * 4 < 64 := by omega
    constructor
    · simp only [base64Encode, base64UrlNoPad, List.map_cons, List.map_nil]
      rw [b64Char_subst _ h1, b64Char_subst _ h2, b64Char_subst _ h3]
      rfl
    · intro c hc
      simp only [base64UrlNoPad, List.mem_cons, List.not_mem_nil, or_false] at hc
      rcases hc with rfl | rfl | rfl
      · exact b64UrlChar_ne _ h1
      · exact b64UrlChar_ne _ h2
      · exact b64UrlChar_ne _ h3
  | a :: b :: c :: rest, hlen, hlt => by
    have hrest : rest.length % 3 = 2 := by
      simp only [List.length_cons] at hlen
      omega
    have hltr : ∀ x ∈ rest, x < 256 := fun x hx => hlt x (by simp [hx])
    obtain ⟨ih1, ih2⟩ := base64Encode_mod3_2 rest hrest hltr
    have ha : a < 256 := hlt a (by simp)
    have hb : b < 256 := hlt b (by simp)
    have hc : c < 256 := hlt c (by simp)
    have h1 : a / 4 < 64 := by omega
    have h2 : a % 4 * 16 + b / 16 < 64 := by omega
    have h3 : b % 16 * 4 + c / 64 < 64 := by omega
    have h4 : c % 64 < 64 := by omega
    constructor
    · simp only [base64Encode, base64UrlNoPad, List.map_cons]
      rw [b64Char_subst _ h1, b64Char_subst _ h2, b64Char_subst _ h3,
        b64Char_subst _ h4, ih1]
      rfl
    · intro x hx
      simp only [base64UrlNoPad, List.mem_cons] at hx
      rcases hx with rfl | rfl | rfl | rfl | hx
      · exact b64UrlChar_ne _ h1
      · exact b64UrlChar_ne _ h2
      · exact b64UrlChar_ne _ h3
      · exact b64UrlChar_ne _ h4
      · exact ih2 x hx

/-- C7: for every verifier, the PKCE challenge computed by the
consent-creation routes equals `base64url_nopad(SHA256(verifier))` — the
base64 of the raw SHA-256 digest with `+`→`-`, `/`→`_` and the trailing
`=` padding stripped — and contains no `+`, `/` or `=` character.  As the
challenge is a pure function of the verifier, re-deriving it from the same
verifier always yields this same output (determinism). -/
theorem pkce_challenge_base64url :
    ∀ verifier : List Nat,
      codeChallenge verifier =
        base64UrlNoPad (sha256 (utf8Encode verifier)) ∧
      ∀ ch ∈ codeChallenge verifier, ch ≠ 43 ∧ ch ≠ 47 ∧ ch ≠ 61 := by
  intro v
  have hlen : (sha256 (utf8Encode v)).length % 3 = 2 := by
    rw [sha256_length]
  have hlt := sha256_bytes_lt (utf8Encode v)
  obtain ⟨hmap, hmem⟩ := base64Encode_mod3_2 (sha256 (utf8Encode v)) hlen hlt
  have hch : codeChallenge v = base64UrlNoPad (sha256 (utf8Encode v)) := by
    simp only [codeChallenge]
    rw [hmap, List.getLast?_concat, if_pos rfl, List.dropLast_concat]
  exact ⟨hch, fun ch hch2 => hmem ch (hch ▸ hch2)⟩

/-- A recovered consent id forces the state payload to be a non-empty JSON
object. -/
theorem extractConsentId_obj (sp : Option JVal) (cid : JVal)
    (h : extractConsentId sp = some cid) :
    ∃ fields, fields ≠ [] ∧ sp = some (JVal.obj fields) := by
  cases sp with
  | none => simp [extractConsentId, jsGet] at h
  | some w =>
    cases w with
    | obj fields =>
      cases fields with
      | nil => simp [extractConsentId, jsGet] at h
      | cons f fs => exact ⟨f :: fs, by simp, rfl⟩
    | jnull => simp [extractConsentId, jsGet] at h
    | boolean b => simp [extractConsentId, jsGet] at h
    | num lit => simp [extractConsentId, jsGet] at h
    | str s => simp [extractConsentId, jsGet] at h
    | arr es => simp [extractConsentId, jsGet] at h

/-- `safeJson` is the identity on a state payload from which a consent id
was recovered. -/
theorem safeJson_of_extract (sp : Option JVal) (cid : JVal)
    (h : extractConsentId sp = some cid) : safeJson sp = sp := by
  obtain ⟨fields, hne, rfl⟩ := extractConsentId_obj sp cid h
  cases fields with
  | nil => exact absurd rfl hne
  | cons f fs => rfl

/-- C3: for every inbound redirect callback whose `state` decodes to an
object from which a (truthy) consent identifier is recovered, the persisted
status is `callback_error` when an `error` parameter carries a value, else
`authorization_code_received` when a `code` parameter carries a value, else
`callback_received`; and the upserted row carries the consent id, the code
as `authCode` (or null), the issuer, the decoded state payload, the
flattened callback query, the callback error object, the
callback-received timestamp and that status.  (Parameter "presence" is
JavaScript truthiness in the source: a present-but-empty string parameter
is treated as absent.) -/
theorem callback_status_and_row :
    ∀ (a : CallbackArgs) (now : Int) (cid : JVal),
      extractConsentId (decodeBase64Json a.state) = some cid →
      ∃ row, recordConsentCallbackRow a now = some row ∧
        row.consent_id = cid ∧
        row.status = (if truthyCU a.error then "callback_error"
          else if truthyCU a.code then "authorization_code_received"
          else "callback_received") ∧
        row.auth_code = a.code ∧
        row.issuer = a.issuer ∧
        row.state_payload = decodeBase64Json a.state ∧
        row.callback_query = safeJsonFlat (flattenQuery a.query) ∧
        row.callback_error = (if truthyCU a.error ∨ truthyCU a.errorDescription
          then some (a.error, a.errorDescription) else none) ∧
        row.callback_received_at = now := by
  intro a now cid h
  unfold recordConsentCallbackRow
  rw [h]
  exact ⟨_, rfl, rfl, rfl, rfl, rfl,
    safeJson_of_extract (decodeBase64Json a.state) cid h, rfl, rfl, rfl⟩

/-- Witness for `callback_status_and_row`: the end-to-end scenario of the
spec — a callback with `code=abc123` and `state` the base64 of
`{"code_verifier":"v","consent_id":"c1"}` produces the row for `c1` with
`authCode = abc123` and status `authorization_code_received`. -/
theorem callback_status_and_row_witness :
    ∃ row, recordConsentCallbackRow
        ⟨some (ascii "abc123"),
         some (ascii "eyJjb2RlX3ZlcmlmaWVyIjoidiIsImNvbnNlbnRfaWQiOiJjMSJ9"),
         none, none, none, none⟩ 42 = some row ∧
      row.consent_id = JVal.str (ascii "c1") ∧
      row.status = "authorization_code_received" ∧
      row.auth_code = some (ascii "abc123") := by
  obtain ⟨row, h1, h2, h3, h4, -⟩ := callback_status_and_row
    ⟨some (ascii "abc123"),
     some (ascii "eyJjb2RlX3ZlcmlmaWVyIjoidiIsImNvbnNlbnRfaWQiOiJjMSJ9"),
     none, none, none, none⟩ 42 (JVal.str (ascii "c1")) rfl
  refine ⟨row, h1, h2, ?_, h4⟩
  rw [h3]
  rfl

/-- C4 counterexample: a `state` decoding to `{"ConsentId":"c9"}` lacks
both a `consent_id` and a `consentId` field, yet the callback reconciler
still persists a row — the source also accepts the `ConsentId` spelling. -/
theorem callback_missing_consent_counterexample :
    decodeBase64Json (some (ascii "eyJDb25zZW50SWQiOiJjOSJ9")) =
      some (JVal.obj [(ascii "ConsentId", JVal.str (ascii "c9"))]) ∧
    jsGet (JVal.obj [(ascii "ConsentId", JVal.str (ascii "c9"))])
      (ascii "consent_id") = none ∧
    jsGet (JVal.obj [(ascii "ConsentId", JVal.str (ascii "c9"))])
      (ascii "consentId") = none ∧
    (recordConsentCallbackRow
        ⟨none, some (ascii "eyJDb25zZW50SWQiOiJjOSJ9"), none, none, none,
          none⟩ 0).isSome = true := by
  exact ⟨rfl, rfl, rfl, rfl⟩

/-- C4 (amended): for every inbound redirect callback whose `state` fails
to decode as base64 JSON, or whose decoded value yields no truthy consent
identifier under any of the accepted spellings (`consent_id`, `consentId`,
`ConsentId`), the callback reconciler persists nothing: it returns `false`
without submitting any row to the consent store. -/
theorem callback_missing_consent_not_persisted :
    ∀ (a : CallbackArgs) (now : Int) (enabled : Bool)
      (backend : Except String Unit),
      (decodeBase64Json a.state = none ∨
        extractConsentId (decodeBase64Json a.state) = none) →
      recordConsentCallbackRow a now = none ∧
      recordConsentCallback enabled a now backend = .ok false := by
  intro a now enabled backend h
  have hext : extractConsentId (decodeBase64Json a.state) = none := by
    rcases h with h | h
    · rw [h]
      rfl
    · exact h
  have hrow : recordConsentCallbackRow a now = none := by
    unfold recordConsentCallbackRow
    rw [hext]
  refine ⟨hrow, ?_⟩
  unfold recordConsentCallback
  rw [hrow]

/-- Witness for `callback_missing_consent_not_persisted`: a state that is
not base64 JSON (`"!!!"`) is discarded without any store write. -/
theorem callback_missing_consent_not_persisted_witness :
    recordConsentCallbackRow ⟨none, some (ascii "!!!"), none, none, none,
      none⟩ 0 = none ∧
    recordConsentCallback true ⟨none, some (ascii "!!!"), none, none, none,
      none⟩ 0 (.ok ()) = .ok false := by
  exact callback_missing_consent_not_persisted
    ⟨none, some (ascii "!!!"), none, none, none, none⟩ 0 true (.ok ())
    (Or.inl rfl)

/-- C2 counterexample: on a concrete successful PAR round trip, the
single-payment consent-creation success path performs no consent-store
write at all — in particular it writes no ConsentRecord with status
`redirect_ready`, contrary to the claim. -/
theorem singlePayment_no_store_write :
    ¬ ∃ r, r ∈ (singlePaymentSuccess "client-1" "https://auth.example"
        "consent-1" "verifier-1" ⟨201, "urn:example:ruri"⟩).storeWrites ∧
      r.status = "redirect_ready" := by
  rintro ⟨r, hr, -⟩
  simp [singlePaymentSuccess] at hr

/-- C2 (amended): for every consent-creation request whose PAR submission
succeeds, the route forms the redirect URL exactly as
`{authEndpoint}?client_id=...&response_type=code&scope=openid&request_uri={request_uri}`
and returns `{redirect, consent_id, code_verifier}` with the upstream
status to the caller; however the route writes no ConsentRecord itself —
the consent store's `recordConsentCreation` (whose written row defaults to
status `redirect_ready`) is never invoked by the consent-creation path. -/
theorem singlePayment_redirect_and_response :
    ∀ (clientId authEndpoint consentId codeVerifier : String)
      (par : ParResponse),
      (singlePaymentSuccess clientId authEndpoint consentId codeVerifier
          par).response =
        { status := par.status
          redirect := authEndpoint ++ "?client_id=" ++ clientId ++
            "&response_type=code&scope=openid&request_uri=" ++ par.request_uri
          consent_id := consentId
          code_verifier := codeVerifier } ∧
      (singlePaymentSuccess clientId authEndpoint consentId codeVerifier
          par).storeWrites = [] ∧
      (∀ a cid, a.status = none → (creationRow a cid).status = "redirect_ready") := by
  intro clientId authEndpoint consentId codeVerifier par
  refine ⟨rfl, rfl, ?_⟩
  intro a cid h
  simp [creationRow, h]

/-- Witness for `singlePayment_redirect_and_response` at concrete inputs. -/
theorem singlePayment_redirect_and_response_witness :
    (singlePaymentSuccess "cid" "https://auth" "c-1" "v-1"
        ⟨201, "uri-1"⟩).response =
      { status := 201
        redirect :=
          "https://auth?client_id=cid&response_type=code&scope=openid&request_uri=uri-1"
        consent_id := "c-1"
        code_verifier := "v-1" } ∧
    (creationRow ⟨some "c-1", none, none, none, none, none, none⟩ "c-1").status =
      "redirect_ready" := by
  refine ⟨?_, ?_⟩
  · have h := (singlePayment_redirect_and_response "cid" "https://auth" "c-1"
      "v-1" ⟨201, "uri-1"⟩).1
    rw [h]
    rfl
  · exact (singlePayment_redirect_and_response "x" "x" "x" "x" ⟨0, "x"⟩).2.2
      ⟨some "c-1", none, none, none, none, none, none⟩ "c-1" rfl

end OpenFinance
